import Mathlib

/-!
Shallow embedding of the pottery-log-server core: the export session state
machine (`NewExport` / `AddImage` / `Finish` and `saveMetadataFile`), the S3
blob transfer functions (`uploadFile`, `uploadMultipart`,
`abortMultipartUpload`, `deleteImage`, `objectExists`, `objectUrl`,
`downloadImport`) and the HTTP-level `Delete` and `Import` logic that drives
them.  Local and remote I/O is modelled by explicit environment records that
say which operations succeed, and by an `S3State` record of the remote store's
observable effects (objects present, put/delete/multipart calls issued).
Error values mirror the spec's taxonomy, each carrying the message string the
Go code builds at the corresponding site.
-/

namespace PotteryLog

/-- Byte strings are modelled as lists of naturals (one per byte). -/
abbrev Bytes := List Nat

/-- Error taxonomy of the spec (§7), each constructor carrying the message the
code produces at the corresponding site. -/
inductive Err where
  | stateError (msg : String)
  | ioError (msg : String)
  | storageError (msg : String)
  | validationError (msg : String)
deriving DecidableEq

/-! ## Export sessions (export.go: `NewExport`, `AddImage`, `Finish`) -/

/-- The reserved metadata entry name, `const metadataFileName = "metadata.json"`. -/
def metadataFileName : String := "metadata.json"

/-- One named record inside the zip archive: the name passed to
`zip.Writer.CreateHeader`, the bytes written into the entry, and the
content-type hint stored in the zip `Comment` field. -/
structure ArchiveEntry where
  name : String
  data : Bytes
  comment : String
deriving DecidableEq

/-- The `export` struct: the zip writer's accumulated entries (the contents of
the staging file once the writer is closed) and the `finished` flag.  The
per-session mutex serialises operations; each model operation is one critical
section. -/
structure Export where
  entries : List ArchiveEntry
  finished : Bool
deriving DecidableEq

/-- Which local-filesystem operations of `NewExport` / `saveMetadataFile`
succeed. -/
structure StartEnv where
  saveMetaCreateOk : Bool
  saveMetaWriteOk : Bool
  createZipOk : Bool
  zipEntryCreateOk : Bool
  zipEntryWriteOk : Bool
deriving DecidableEq

/-- `saveMetadataFile(metadata, deviceID)`: creates
`/tmp/pottery-log-exports/metadata/<deviceID>.json` and writes the metadata
bytes.  Returns the error result and the staged copy actually persisted
(`none` when either step fails). -/
def saveMetadataFile (env : StartEnv) (deviceID : String) (metadata : Bytes) :
    Except Err Unit × Option Bytes :=
  let _location := "/tmp/pottery-log-exports/metadata/" ++ deviceID ++ ".json"
  if ¬env.saveMetaCreateOk then
    (.error (.ioError "create metadata file failed"), none)
  else if ¬env.saveMetaWriteOk then
    (.error (.ioError "write metadata file failed"), none)
  else (.ok (), some metadata)

/-- `NewExport(deviceID, metadata)`: calls `saveMetadataFile` with its error
result discarded (the Go code does not inspect it), then creates the staging
zip file, the reserved metadata entry, and writes the metadata bytes into it.
Returns the session (or the first error of the zip-side steps) together with
the staged copy `saveMetadataFile` persisted. -/
def NewExport (env : StartEnv) (deviceID : String) (metadata : Bytes) :
    Except Err Export × Option Bytes :=
  let staged := (saveMetadataFile env deviceID metadata).2
  if ¬env.createZipOk then
    (.error (.ioError "create staging file failed"), staged)
  else if ¬env.zipEntryCreateOk then
    (.error (.ioError "zip create entry failed"), staged)
  else if ¬env.zipEntryWriteOk then
    (.error (.ioError "zip write entry failed"), staged)
  else
    (.ok { entries := [⟨metadataFileName, metadata, ""⟩], finished := false },
     staged)

/-- Outcome of the `io.Copy` from the request's image stream into the zip
entry: either all bytes are copied or the copy fails after writing some
prefix (the partial entry is left in the archive, as the code does not roll
it back). -/
inductive CopyOutcome where
  | success
  | failAfter (written : Bytes)
deriving DecidableEq

/-- Which steps of one `AddImage` call succeed. -/
structure AddEnv where
  createHeaderOk : Bool
  copy : CopyOutcome
deriving DecidableEq

/-- `export.AddImage`: under the session lock, fails with the state error if
`finished`; otherwise creates a compressed entry named `filename` with the
content type as its comment and copies the stream into it.  Returns the call
result and the session state afterwards. -/
def AddImage (env : AddEnv) (e : Export) (filename contentType : String)
    (data : Bytes) : Except Err Unit × Export :=
  if e.finished then
    (.error (.stateError "The export has finished"), e)
  else if ¬env.createHeaderOk then
    (.error (.ioError "zip create header failed"), e)
  else
    match env.copy with
    | .success =>
        (.ok (), { e with entries := e.entries ++ [⟨filename, data, contentType⟩] })
    | .failAfter written =>
        (.error (.ioError "copy failed"),
         { e with entries := e.entries ++ [⟨filename, written, contentType⟩] })

/-- Which steps of one `Finish` call succeed. -/
structure FinishEnv where
  closeOk : Bool
  seekOk : Bool
deriving DecidableEq

/-- `export.Finish`: under the session lock, fails with the state error if
already `finished`; otherwise flips `finished`, closes the zip writer and
rewinds the staging file, returning it as the sealed archive (its entries).
The state is flipped before the fallible steps, so the session is terminal
even when they fail. -/
def Finish (env : FinishEnv) (e : Export) :
    Except Err (List ArchiveEntry) × Export :=
  if e.finished then
    (.error (.stateError "The export has finished"), e)
  else
    let e' := { e with finished := true }
    if ¬env.closeOk then
      (.error (.ioError "zip close failed"), e')
    else if ¬env.seekOk then
      (.error (.ioError "seek failed"), e')
    else
      (.ok e.entries, e')

/-- The environment in which every local-filesystem step succeeds. -/
def happyStart : StartEnv := ⟨true, true, true, true, true⟩

/-- An `AddImage` environment in which the call succeeds. -/
def happyAdd : AddEnv := ⟨true, .success⟩

/-- A `Finish` environment in which the call succeeds. -/
def happyFinish : FinishEnv := ⟨true, true⟩

/-- The arguments of one `AddImage` call: entry name, content-type hint, and
the stream's bytes. -/
structure ImageCall where
  name : String
  contentType : String
  data : Bytes
deriving DecidableEq

/-- The archive entry a successful `AddImage` call writes. -/
def ImageCall.entry (i : ImageCall) : ArchiveEntry :=
  ⟨i.name, i.data, i.contentType⟩

/-- Run a sequence of `AddImage` calls (all I/O succeeding) on a session,
stopping at the first error. -/
def addImages (imgs : List ImageCall) (e : Export) : Except Err Export :=
  match imgs with
  | [] => .ok e
  | i :: rest =>
      match AddImage happyAdd e i.name i.contentType i.data with
      | (.error er, _) => .error er
      | (.ok _, e') => addImages rest e'

/-- A whole session on the happy path: `Start` (via `NewExport`), the given
`AddImage` calls, then `Finish`; the result is the sealed archive's entries. -/
def runExport (deviceID : String) (metadata : Bytes) (imgs : List ImageCall) :
    Except Err (List ArchiveEntry) :=
  match (NewExport happyStart deviceID metadata).1 with
  | .error er => .error er
  | .ok e =>
      match addImages imgs e with
      | .error er => .error er
      | .ok e' => (Finish happyFinish e').1

/-- Decidable equality for `Except`, so that concrete runs of the model can be
checked by `decide`. -/
instance {ε α : Type} [DecidableEq ε] [DecidableEq α] :
    DecidableEq (Except ε α) := fun a b =>
  match a, b with
  | .ok x, .ok y =>
      if h : x = y then .isTrue (by rw [h]) else .isFalse (by simp [h])
  | .error x, .error y =>
      if h : x = y then .isTrue (by rw [h]) else .isFalse (by simp [h])
  | .ok _, .error _ => .isFalse (by simp)
  | .error _, .ok _ => .isFalse (by simp)

/-! ## Blob transfer (s3.go) -/

/-- `const imageBucketName = "pottery-log"`. -/
def imageBucketName : String := "pottery-log"

/-- `const importBucketName = "pottery-log-exports"`. -/
def importBucketName : String := "pottery-log-exports"

/-- Observable state of the remote store plus the calls issued to it:
which `(bucket, key)` objects exist, how many `PutObject` calls were issued,
how many multipart sessions were created / aborted / completed, and the
`DeleteObject` requests issued (bucket, key). -/
structure S3State where
  objects : List (String × String)
  putCount : Nat
  mpCreated : Nat
  mpAborted : Nat
  mpCompleted : Nat
  deletes : List (String × String)
deriving DecidableEq

/-- `objectExists(bucketName, fileName)`: the `HeadObject` probe, true when the
object is present. -/
def objectExists (st : S3State) (bucketName fileName : String) : Bool :=
  (bucketName, fileName) ∈ st.objects

/-- `objectUrl(bucketName, fileName) = "https://<bucket>.s3.amazonaws.com/<key>"`. -/
def objectUrl (bucketName fileName : String) : String :=
  "https://" ++ bucketName ++ ".s3.amazonaws.com/" ++ fileName

/-- The source handed to `uploadFile`: either an `io.ReadSeeker` (streamed
directly) or a plain reader whose bytes are read fully into memory first. -/
inductive FileSource where
  | seekable (data : Bytes)
  | stream (data : Bytes)
deriving DecidableEq

/-- Which steps of one `uploadFile` call succeed: the `ioutil.ReadAll` of a
non-seekable source and the `PutObject` call. -/
structure UfEnv where
  readOk : Bool
  putOk : Bool
deriving DecidableEq

/-- `uploadFile(bucketName, file, fileName, contentType, deviceID)`: computes
the full key `<deviceID>/<fileName>`; if the object exists, returns its
canonical URL with no further remote call; otherwise resolves the reader
(reading a non-seekable source into memory and sniffing the content type
with `detect` when the hint is not an image MIME type) and issues one
`PutObject`.  A failed put still counts as an issued `PutObject` call but
leaves no object. -/
def uploadFile (detect : Bytes → String) (env : UfEnv) (st : S3State)
    (bucketName : String) (file : FileSource)
    (fileName contentType deviceID : String) : Except Err String × S3State :=
  let fullFileName := deviceID ++ "/" ++ fileName
  if objectExists st bucketName fullFileName then
    (.ok (objectUrl bucketName fullFileName), st)
  else
    let readOutcome : Except Err String :=
      match file with
      | .seekable _ => .ok contentType
      | .stream data =>
          if ¬env.readOk then .error (.ioError "read failed")
          else if contentType.startsWith "image/" then .ok contentType
          else .ok (detect data)
    match readOutcome with
    | .error er => (.error er, st)
    | .ok _resolvedType =>
        if env.putOk then
          (.ok (objectUrl bucketName fullFileName),
           { st with objects := (bucketName, fullFileName) :: st.objects,
                     putCount := st.putCount + 1 })
        else
          (.error (.storageError "PutObject failed"),
           { st with putCount := st.putCount + 1 })

/-- `const MIN_MULTIPART_SIZE = 1_000_000_000`. -/
def MIN_MULTIPART_SIZE : Nat := 1000000000

/-- `const PART_SIZE = 500_000_000`. -/
def PART_SIZE : Nat := 500000000

/-- A local file handed to `uploadMultipart`: the size `Stat` reports and the
byte contents (for a regular file, `size = data.length`; the multipart loop
observes only the size, each `Read` returning `min PART_SIZE remaining`
bytes and then `0, io.EOF`). -/
structure LocalFile where
  size : Nat
  data : Bytes
deriving DecidableEq

/-- Which steps of one `uploadMultipart` call succeed, and where failures are
injected: `createOk` for `CreateMultipartUpload`, `readErrAt`/`partErrAt`
inject a `file.Read` error (resp. an `UploadPart` error) at the given
1-based loop iteration carrying the given message, `completeOk` for
`CompleteMultipartUpload`, `abortOk` for the best-effort
`AbortMultipartUpload`. -/
structure MpEnv where
  createOk : Bool
  readErrAt : Option Nat
  readErrMsg : String
  partErrAt : Option Nat
  partErrMsg : String
  completeOk : Bool
  abortOk : Bool
deriving DecidableEq

/-- Result of the part-upload loop: the completed `(part number, byte count)`
pairs or the first error, whether `abortMultipartUpload` was called, and
whether a failure of the abort itself was logged. -/
structure LoopOut where
  res : Except Err (List (Nat × Nat))
  abortCalled : Bool
  abortFailLogged : Bool
deriving DecidableEq

/-- The `for` loop of `uploadMultipart` over `remaining` unread bytes: each
iteration reads `min PART_SIZE remaining` bytes, breaks on the zero-length
EOF read, aborts and returns on a read or `UploadPart` error, and otherwise
submits the chunk as part `partNum` and appends its record.  `aborted`
failures are only logged (`abortFailLogged`), never returned. -/
def mpLoop (env : MpEnv) (remaining partNum : Nat) (acc : List (Nat × Nat)) :
    LoopOut :=
  if env.readErrAt = some partNum then
    ⟨.error (.ioError env.readErrMsg), true, !env.abortOk⟩
  else
    let n := min PART_SIZE remaining
    if _h : n = 0 then
      ⟨.ok acc, false, false⟩
    else if env.partErrAt = some partNum then
      ⟨.error (.storageError env.partErrMsg), true, !env.abortOk⟩
    else
      mpLoop env (remaining - n) (partNum + 1) (acc ++ [(partNum, n)])
termination_by remaining
decreasing_by
  simp only [PART_SIZE] at *
  omega

/-- The part schedule the happy-path loop submits for `remaining` unread
bytes starting at part number `partNum`: one `(number, byte count)` pair per
`min PART_SIZE remaining`-byte chunk. -/
def partsSchedule (remaining partNum : Nat) : List (Nat × Nat) :=
  let n := min PART_SIZE remaining
  if _h : n = 0 then []
  else (partNum, n) :: partsSchedule (remaining - n) (partNum + 1)
termination_by remaining
decreasing_by
  simp only [PART_SIZE] at *
  omega

/-- Full outcome of `uploadMultipart`: the returned result, the remote state
afterwards, the parts submitted, and the abort bookkeeping. -/
structure MpOutcome where
  res : Except Err String
  st : S3State
  parts : List (Nat × Nat)
  abortCalled : Bool
  abortFailLogged : Bool
deriving DecidableEq

/-- `uploadMultipart(bucketName, file, fileName, contentType, deviceID)`:
falls back to `uploadFile` below `MIN_MULTIPART_SIZE` (the `*os.File` is
seekable), short-circuits on an existing object, creates the multipart
session, runs the part loop, and completes the upload (only a successful
`CompleteMultipartUpload` makes the object exist). -/
def uploadMultipart (detect : Bytes → String) (ufEnv : UfEnv) (env : MpEnv)
    (st : S3State) (bucketName : String) (file : LocalFile)
    (fileName contentType deviceID : String) : MpOutcome :=
  if file.size < MIN_MULTIPART_SIZE then
    let r := uploadFile detect ufEnv st bucketName (.seekable file.data)
      fileName contentType deviceID
    ⟨r.1, r.2, [], false, false⟩
  else
    let fullFileName := deviceID ++ "/" ++ fileName
    if objectExists st bucketName fullFileName then
      ⟨.ok (objectUrl bucketName fullFileName), st, [], false, false⟩
    else if ¬env.createOk then
      ⟨.error (.storageError "CreateMultipartUpload failed"), st, [], false, false⟩
    else
      let st1 := { st with mpCreated := st.mpCreated + 1 }
      match mpLoop env file.size 1 [] with
      | ⟨.error er, _, failLogged⟩ =>
          ⟨.error er, { st1 with mpAborted := st1.mpAborted + 1 }, [], true,
           failLogged⟩
      | ⟨.ok parts, _, _⟩ =>
          if env.completeOk then
            ⟨.ok (objectUrl bucketName fullFileName),
             { st1 with objects := (bucketName, fullFileName) :: st1.objects,
                        mpCompleted := st1.mpCompleted + 1 },
             parts, false, false⟩
          else
            ⟨.error (.storageError "CompleteMultipartUpload failed"), st1,
             parts, false, false⟩

/-- `deleteImage(fileName)`: issues one `DeleteObject` against the fixed
`imageBucketName` with the given key; the request is issued whether or not
the remote call then fails. -/
def deleteImage (deleteOk : Bool) (st : S3State) (fileName : String) :
    Except Err Unit × S3State :=
  let st' := { st with deletes := (imageBucketName, fileName) :: st.deletes }
  if deleteOk then (.ok (), st')
  else (.error (.storageError "DeleteObject failed"), st')

/-- One splitting step of Go's `strings.Split` with the non-empty separator
`c0 :: ctail`, scanning `s` left to right: at each position, when the
separator is a prefix, emit the accumulated chunk and continue after the
separator; otherwise keep scanning.  `fuel` is a structural-recursion bound;
every call site passes more fuel than `s.length`, so the fuel-exhausted
branch is never reached. -/
def splitSepFuel (c0 : Char) (ctail : List Char) :
    Nat → List Char → List Char → List (List Char)
  | 0, s, acc => [acc.reverse ++ s]
  | fuel + 1, s, acc =>
      match s with
      | [] => [acc.reverse]
      | c :: rest =>
          if (c0 :: ctail).isPrefixOf (c :: rest) then
            acc.reverse :: splitSepFuel c0 ctail fuel (rest.drop ctail.length) []
          else
            splitSepFuel c0 ctail fuel rest (c :: acc)

/-- `strings.Split(s, sep)` for a non-empty separator, on character lists.
(The handlers only call it with the literal `"s3.amazonaws.com/"`; the
empty-separator case of Go's `Split` is not modelled.) -/
def splitSep (sep s : List Char) : List (List Char) :=
  match sep with
  | [] => [s]
  | c0 :: ctail => splitSepFuel c0 ctail (s.length + 1) s []

/-- Join chunks back with the separator between them — the inverse of
`splitSep`, used to state that splitting decomposes the input verbatim. -/
def joinSep (sep : List Char) : List (List Char) → List Char
  | [] => []
  | [x] => x
  | x :: y :: rest => x ++ sep ++ joinSep sep (y :: rest)

/-- The separator the `Delete` handler splits on. -/
def s3Marker : List Char := "s3.amazonaws.com/".toList

/-- The `Delete` HTTP handler's core: requires the `uri` field, splits the
URI on `"s3.amazonaws.com/"`, requires exactly two pieces, and deletes the
second piece as the key via `deleteImage` (always against the image
bucket). -/
def deleteHandlerCore (deleteOk : Bool) (st : S3State) (uri : List Char) :
    Except Err Unit × S3State :=
  if uri = [] then
    (.error (.validationError "Missing required field uri"), st)
  else
    let parts := splitSep s3Marker uri
    if h : parts.length = 2 then
      deleteImage deleteOk st (String.mk (parts.get ⟨1, by omega⟩))
    else
      (.error (.validationError ("Cant parse uri " ++ String.mk uri)), st)

/-! ## Remote-archive download (`downloadImport`) and the `Import` handler -/

/-- A URL after `url.Parse`: its host and path components.  (Parsing itself is
the standard library's; the model starts from the parsed value.) -/
structure ParsedUrl where
  host : String
  path : String
deriving DecidableEq

/-- `downloadImport(urlString, localFile)`: rejects any URL whose host is not
exactly `"<importBucketName>.s3.amazonaws.com"` before touching the network;
otherwise downloads the object at the URL's path from the import bucket.
Returns the result and whether a fetch (the `Download` call) was issued. -/
def downloadImport (downloadOk : Bool) (u : ParsedUrl) :
    Except Err Unit × Bool :=
  if u.host ≠ importBucketName ++ ".s3.amazonaws.com" then
    (.error (.validationError "The link must be a Pottery Log export link"),
     false)
  else if downloadOk then (.ok (), true)
  else (.error (.storageError "Download failed"), true)

/-- One entry of the zip archive handed to `Import`: its name, its `Comment`
(the content type recorded at export time), its bytes, and whether opening /
reading this entry succeeds. -/
structure ZipEntry where
  name : String
  comment : String
  data : Bytes
  openOk : Bool
  readOk : Bool
deriving DecidableEq

/-- The success payload of `Import`: the metadata bytes and the
name-to-URL map for the uploaded image entries (in insertion order). -/
structure ImportResult where
  metadata : Bytes
  imageMap : List (String × String)
deriving DecidableEq

/-- The entry loop of the `Import` handler: for the reserved metadata name,
capture the entry's bytes (a later metadata entry overwrites an earlier
capture); for any other entry, open it and upload it to the import bucket
via `uploadFile` (a zip entry reader is not seekable), recording the URL
under the entry's name; stop at the first error.  After the loop, fail with
the validation error when no metadata entry was seen. -/
def importLoop (detect : Bytes → String) (ufEnv : UfEnv) (st : S3State)
    (deviceID : String) (entries : List ZipEntry)
    (imageMap : List (String × String)) (metadata : Option Bytes) :
    Except Err ImportResult × S3State :=
  match entries with
  | [] =>
      match metadata with
      | none =>
          (.error (.validationError
            ("No " ++ metadataFileName ++ " found in the zip file")), st)
      | some m => (.ok ⟨m, imageMap⟩, st)
  | f :: rest =>
      if f.name = metadataFileName then
        if ¬f.openOk then (.error (.ioError "open metadata entry failed"), st)
        else if ¬f.readOk then
          (.error (.ioError "read metadata entry failed"), st)
        else importLoop detect ufEnv st deviceID rest imageMap (some f.data)
      else
        if ¬f.openOk then (.error (.ioError "open image entry failed"), st)
        else
          match uploadFile detect ufEnv st importBucketName (.stream f.data)
              f.name f.comment deviceID with
          | (.error er, st') => (.error er, st')
          | (.ok uri, st') =>
              importLoop detect ufEnv st' deviceID rest
                (imageMap ++ [(f.name, uri)]) metadata

/-- `Import`'s core once a zip reader is in hand: run the entry loop with an
empty map and no metadata captured. -/
def importArchive (detect : Bytes → String) (ufEnv : UfEnv) (st : S3State)
    (deviceID : String) (entries : List ZipEntry) :
    Except Err ImportResult × S3State :=
  importLoop detect ufEnv st deviceID entries [] none

/-! ## Theorems -/

/-- Running a list of `AddImage` calls on an open session appends exactly one
entry per call, in order, and keeps the session open. -/
theorem addImages_ok (imgs : List ImageCall) :
    ∀ e : Export, e.finished = false →
    addImages imgs e = .ok ⟨e.entries ++ imgs.map ImageCall.entry, false⟩ := by
  induction imgs with
  | nil =>
      intro e he
      cases e with
      | mk entries finished =>
          simp only at he
          subst he
          simp [addImages]
  | cons i rest ih =>
      intro e he
      simp only [addImages, AddImage, he, happyAdd, Bool.false_eq_true,
        if_false, not_true, List.map_cons]
      rw [ih _ rfl]
      simp [List.append_assoc, ImageCall.entry]

/-- C1: for every device identifier, metadata, and sequence of (successful)
`AddImage` calls on an open session, the archive a successful `Finish`
returns contains exactly the reserved metadata entry, with the bytes
supplied at `Start`, followed by one entry per `AddImage` call with exactly
the bytes supplied; with no `AddImage` calls it is exactly the single
metadata entry. -/
theorem c1_export_archive_entries_exact (deviceID : String) (metadata : Bytes)
    (imgs : List ImageCall) :
    runExport deviceID metadata imgs =
      .ok (⟨metadataFileName, metadata, ""⟩ :: imgs.map ImageCall.entry) := by
  simp only [runExport, NewExport, saveMetadataFile, happyStart,
    Bool.not_true, if_false, not_true]
  rw [addImages_ok _ _ rfl]
  simp [Finish, happyFinish]

/-- C2: the first `Finish` on an open session succeeds, returning the sealed
archive, and flips the state to `Finished`; any `Finish` call leaves the
session `Finished`; `Finish` on a finished session returns the state error
with the session unchanged; and `AddImage` on a finished session returns the
state error leaving the archive unmodified. -/
theorem c2_finish_once_then_state_error :
    (∀ e : Export, e.finished = false →
        (Finish happyFinish e).1 = .ok e.entries ∧
        (Finish happyFinish e).2.finished = true) ∧
    (∀ (env : FinishEnv) (e : Export), (Finish env e).2.finished = true) ∧
    (∀ (env : FinishEnv) (e : Export), e.finished = true →
        Finish env e = (.error (.stateError "The export has finished"), e)) ∧
    (∀ (env : AddEnv) (e : Export) (filename contentType : String)
        (data : Bytes), e.finished = true →
        AddImage env e filename contentType data =
          (.error (.stateError "The export has finished"), e)) := by
  refine ⟨?_, ?_, ?_, ?_⟩
  · intro e he
    simp [Finish, happyFinish, he]
  · intro env e
    by_cases he : e.finished
    · simp [Finish, he]
    · simp only [Bool.not_eq_true] at he
      simp only [Finish, he, Bool.false_eq_true, if_false]
      split <;> simp
      split <;> simp
  · intro env e he
    simp [Finish, he]
  · intro env e filename contentType data he
    simp [AddImage, he]

/-- Witness for C2 on concrete sessions: a fresh session's `Finish` succeeds
and seals it, and `Finish` / `AddImage` on a finished session both return
the state error unchanged. -/
theorem c2_finish_once_then_state_error_witness :
    ((Finish happyFinish ⟨[], false⟩).1 = .ok [] ∧
     (Finish happyFinish ⟨[], false⟩).2.finished = true) ∧
    Finish ⟨true, true⟩ ⟨[], true⟩ =
      (.error (.stateError "The export has finished"), ⟨[], true⟩) ∧
    AddImage happyAdd ⟨[], true⟩ "a.png" "image/png" [1] =
      (.error (.stateError "The export has finished"), ⟨[], true⟩) :=
  ⟨c2_finish_once_then_state_error.1 ⟨[], false⟩ rfl,
   c2_finish_once_then_state_error.2.2.1 ⟨true, true⟩ ⟨[], true⟩ rfl,
   c2_finish_once_then_state_error.2.2.2 happyAdd ⟨[], true⟩ "a.png"
     "image/png" [1] rfl⟩

/-- C7 (code bug): when persisting the separate staged metadata copy fails
(`saveMetadataFile` returns an I/O error) but every archive-side step
succeeds, `NewExport` still reports success and no staged copy is persisted:
the `saveMetadataFile` error is discarded at its call site, so this
component-level failure is silently swallowed instead of being returned. -/
theorem c7_start_ignores_staged_copy_failure :
    (NewExport ⟨false, true, true, true, true⟩ "dev1" [123]).1 =
      .ok { entries := [⟨metadataFileName, [123], ""⟩], finished := false } ∧
    (NewExport ⟨false, true, true, true, true⟩ "dev1" [123]).2 = none ∧
    (saveMetadataFile ⟨false, true, true, true, true⟩ "dev1" [123]).1 =
      .error (.ioError "create metadata file failed") := by
  decide

/-- When the object is absent and `uploadFile` reports success, the call
performed exactly one `PutObject`, the object is now present, and the
returned value is the canonical URL. -/
theorem uploadFile_ok_shape (detect : Bytes → String) (env : UfEnv)
    (st : S3State) (bucket : String) (file : FileSource)
    (fileName ct deviceID : String)
    (h : objectExists st bucket (deviceID ++ "/" ++ fileName) = false)
    (hok : (uploadFile detect env st bucket file fileName ct deviceID).1.isOk
      = true) :
    uploadFile detect env st bucket file fileName ct deviceID =
      (.ok (objectUrl bucket (deviceID ++ "/" ++ fileName)),
       { st with
           objects := (bucket, deviceID ++ "/" ++ fileName) :: st.objects,
           putCount := st.putCount + 1 }) := by
  simp only [uploadFile, h, Bool.false_eq_true, if_false] at hok ⊢
  cases file with
  | seekable d =>
      by_cases hp : env.putOk
      · simp [hp]
      · simp [hp, Except.isOk, Except.toBool] at hok
  | stream d =>
      by_cases hr : env.readOk
      · by_cases hs : ct.startsWith "image/"
        · by_cases hp : env.putOk
          · simp [hr, hs, hp]
          · simp [hr, hs, hp, Except.isOk, Except.toBool] at hok
        · by_cases hp : env.putOk
          · simp [hr, hs, hp]
          · simp [hr, hs, hp, Except.isOk, Except.toBool] at hok
      · simp [hr, Except.isOk, Except.toBool] at hok

/-- C3: `uploadFile` is idempotent with respect to remote writes.  If the
object already exists at the computed key, the call returns the canonical
URL with the remote state untouched (no write).  Hence when the key is
absent and a first call succeeds, that call issued exactly one `PutObject`,
and a second call with the same `(bucket, fileName, deviceID)` — any
payload, content type, environment — issues no further write and returns
the same URL. -/
theorem c3_upload_single_idempotent :
    (∀ (detect : Bytes → String) (env : UfEnv) (st : S3State)
        (bucket : String) (file : FileSource) (fileName ct deviceID : String),
        objectExists st bucket (deviceID ++ "/" ++ fileName) = true →
        uploadFile detect env st bucket file fileName ct deviceID =
          (.ok (objectUrl bucket (deviceID ++ "/" ++ fileName)), st)) ∧
    (∀ (detect1 detect2 : Bytes → String) (env1 env2 : UfEnv) (st : S3State)
        (bucket : String) (file1 file2 : FileSource)
        (fileName ct1 ct2 deviceID : String),
        objectExists st bucket (deviceID ++ "/" ++ fileName) = false →
        (uploadFile detect1 env1 st bucket file1 fileName ct1 deviceID).1.isOk
          = true →
        uploadFile detect1 env1 st bucket file1 fileName ct1 deviceID =
          (.ok (objectUrl bucket (deviceID ++ "/" ++ fileName)),
           { st with
               objects := (bucket, deviceID ++ "/" ++ fileName) :: st.objects,
               putCount := st.putCount + 1 }) ∧
        uploadFile detect2 env2
            { st with
                objects := (bucket, deviceID ++ "/" ++ fileName) :: st.objects,
                putCount := st.putCount + 1 }
            bucket file2 fileName ct2 deviceID =
          (.ok (objectUrl bucket (deviceID ++ "/" ++ fileName)),
           { st with
               objects := (bucket, deviceID ++ "/" ++ fileName) :: st.objects,
               putCount := st.putCount + 1 })) := by
  constructor
  · intro detect env st bucket file fileName ct deviceID h
    simp [uploadFile, h]
  · intro detect1 detect2 env1 env2 st bucket file1 file2 fileName ct1 ct2
      deviceID h hok
    refine ⟨uploadFile_ok_shape _ _ _ _ _ _ _ _ h hok, ?_⟩
    have hex : objectExists
        { st with
            objects := (bucket, deviceID ++ "/" ++ fileName) :: st.objects,
            putCount := st.putCount + 1 }
        bucket (deviceID ++ "/" ++ fileName) = true := by
      simp [objectExists]
    simp [uploadFile, hex]

/-- Witness for C3: on an empty store, a first upload of `a.png` for device
`d` writes once and a second upload (different payload, content type and
environment) writes nothing and returns the same URL. -/
theorem c3_upload_single_idempotent_witness :
    uploadFile (fun _ => "image/png") ⟨true, true⟩ ⟨[], 0, 0, 0, 0, []⟩
        "pottery-log" (.seekable [1]) "a.png" "image/png" "d" =
      (.ok (objectUrl "pottery-log" "d/a.png"),
       { objects := [("pottery-log", "d/a.png")], putCount := 1,
         mpCreated := 0, mpAborted := 0, mpCompleted := 0, deletes := [] }) ∧
    uploadFile (fun _ => "text/plain") ⟨false, true⟩
        { objects := [("pottery-log", "d/a.png")], putCount := 1,
          mpCreated := 0, mpAborted := 0, mpCompleted := 0, deletes := [] }
        "pottery-log" (.stream [2, 3]) "a.png" "text/html" "d" =
      (.ok (objectUrl "pottery-log" "d/a.png"),
       { objects := [("pottery-log", "d/a.png")], putCount := 1,
         mpCreated := 0, mpAborted := 0, mpCompleted := 0, deletes := [] }) :=
  c3_upload_single_idempotent.2 (fun _ => "image/png") (fun _ => "text/plain")
    ⟨true, true⟩ ⟨false, true⟩ ⟨[], 0, 0, 0, 0, []⟩ "pottery-log"
    (.seekable [1]) (.stream [2, 3]) "a.png" "image/png" "text/html" "d"
    (by decide) (by decide)

/-- C8: strictly below the 1 GB threshold, `uploadMultipart` delegates
entirely to `uploadFile` on the (seekable) local file: same result value,
same remote state, and no multipart activity at all. -/
theorem c8_upload_large_delegates_below_threshold (detect : Bytes → String)
    (ufEnv : UfEnv) (env : MpEnv) (st : S3State) (bucket : String)
    (file : LocalFile) (fileName ct deviceID : String)
    (h : file.size < MIN_MULTIPART_SIZE) :
    uploadMultipart detect ufEnv env st bucket file fileName ct deviceID =
      ⟨(uploadFile detect ufEnv st bucket (.seekable file.data) fileName ct
          deviceID).1,
       (uploadFile detect ufEnv st bucket (.seekable file.data) fileName ct
          deviceID).2,
       [], false, false⟩ := by
  simp [uploadMultipart, h]

/-- Witness for C8: a 5-byte file goes through `uploadFile` unchanged. -/
theorem c8_upload_large_delegates_below_threshold_witness :
    uploadMultipart (fun _ => "application/zip") ⟨true, true⟩
        ⟨true, none, "", none, "", true, true⟩ ⟨[], 0, 0, 0, 0, []⟩
        "pottery-log-exports" ⟨5, [1, 2, 3, 4, 5]⟩ "f.zip" "application/zip"
        "d" =
      ⟨(uploadFile (fun _ => "application/zip") ⟨true, true⟩
          ⟨[], 0, 0, 0, 0, []⟩ "pottery-log-exports" (.seekable [1, 2, 3, 4, 5])
          "f.zip" "application/zip" "d").1,
       (uploadFile (fun _ => "application/zip") ⟨true, true⟩
          ⟨[], 0, 0, 0, 0, []⟩ "pottery-log-exports" (.seekable [1, 2, 3, 4, 5])
          "f.zip" "application/zip" "d").2,
       [], false, false⟩ :=
  c8_upload_large_delegates_below_threshold (fun _ => "application/zip")
    ⟨true, true⟩ ⟨true, none, "", none, "", true, true⟩ ⟨[], 0, 0, 0, 0, []⟩
    "pottery-log-exports" ⟨5, [1, 2, 3, 4, 5]⟩ "f.zip" "application/zip" "d"
    (by decide)

/-- The part numbers of the happy-path schedule starting at `pn` are exactly
`pn, pn+1, …`, contiguous, with `⌈remaining / PART_SIZE⌉` parts in all. -/
theorem partsSchedule_map_fst : ∀ remaining pn,
    (partsSchedule remaining pn).map Prod.fst =
      List.range' pn ((remaining + PART_SIZE - 1) / PART_SIZE) := by
  intro remaining
  induction remaining using Nat.strong_induction_on with
  | _ remaining ih =>
    intro pn
    rw [partsSchedule]
    by_cases h : min PART_SIZE remaining = 0
    · have hr : remaining = 0 := by simp only [PART_SIZE] at h; omega
      subst hr
      simp [PART_SIZE]
    · simp only [dif_neg h, List.map_cons]
      rw [ih (remaining - min PART_SIZE remaining) (by simp only [PART_SIZE] at h ⊢; omega)]
      have hk : (remaining + PART_SIZE - 1) / PART_SIZE =
          ((remaining - min PART_SIZE remaining) + PART_SIZE - 1) / PART_SIZE + 1 := by
        simp only [PART_SIZE] at h ⊢
        omega
      rw [hk, List.range'_succ]


/-- Every part of the schedule carries at least one byte. -/
theorem partsSchedule_pos : ∀ remaining pn p, p ∈ partsSchedule remaining pn →
    0 < p.2 := by
  intro remaining
  induction remaining using Nat.strong_induction_on with
  | _ remaining ih =>
    intro pn p hp
    rw [partsSchedule] at hp
    by_cases h : min PART_SIZE remaining = 0
    · rw [dif_pos h] at hp
      simp at hp
    · simp only [dif_neg h, List.mem_cons] at hp
      rcases hp with hp | hp
      · subst hp
        simp only [PART_SIZE] at h ⊢
        omega
      · exact ih (remaining - min PART_SIZE remaining)
          (by simp only [PART_SIZE] at h ⊢; omega) (pn + 1) p hp

/-- With no injected read or part-submission failure, the part loop submits
exactly the schedule, in order, and never aborts. -/
theorem mpLoop_happy (env : MpEnv) (hr : env.readErrAt = none)
    (hp : env.partErrAt = none) : ∀ remaining pn acc,
    mpLoop env remaining pn acc =
      ⟨.ok (acc ++ partsSchedule remaining pn), false, false⟩ := by
  intro remaining
  induction remaining using Nat.strong_induction_on with
  | _ remaining ih =>
    intro pn acc
    rw [mpLoop, partsSchedule]
    simp only [hr, reduceCtorEq, if_false]
    by_cases h : min PART_SIZE remaining = 0
    · simp only [dif_pos h]
      simp
    · simp only [dif_neg h, hp, reduceCtorEq, if_false]
      rw [ih (remaining - min PART_SIZE remaining)
        (by simp only [PART_SIZE] at h ⊢; omega)]
      simp

/-- A read failure injected at an iteration the loop reaches makes it abort
the multipart session and return that read error (any abort failure being
only logged). -/
theorem mpLoop_readErr (env : MpEnv) (m : Nat) (hm : env.readErrAt = some m)
    (hpe : env.partErrAt = none) : ∀ remaining pn acc, pn ≤ m →
    m - pn < (remaining + PART_SIZE - 1) / PART_SIZE →
    mpLoop env remaining pn acc =
      ⟨.error (.ioError env.readErrMsg), true, !env.abortOk⟩ := by
  intro remaining
  induction remaining using Nat.strong_induction_on with
  | _ remaining ih =>
    intro pn acc hpn hlt
    rw [mpLoop]
    by_cases he : m = pn
    · subst he
      simp [hm]
    · simp only [hm, Option.some.injEq, if_neg he]
      by_cases h0 : min PART_SIZE remaining = 0
      · exfalso
        simp only [PART_SIZE] at h0 hlt
        omega
      · simp only [dif_neg h0, hpe, reduceCtorEq, if_false]
        apply ih (remaining - min PART_SIZE remaining)
          (by simp only [PART_SIZE] at h0 ⊢; omega) (pn + 1) _ (by omega)
        simp only [PART_SIZE] at h0 hlt ⊢
        omega

/-- An `UploadPart` failure injected at a part the loop reaches makes it
abort the multipart session and return that part error (any abort failure
being only logged). -/
theorem mpLoop_partErr (env : MpEnv) (m : Nat) (hr : env.readErrAt = none)
    (hpe : env.partErrAt = some m) : ∀ remaining pn acc, pn ≤ m →
    m - pn < (remaining + PART_SIZE - 1) / PART_SIZE →
    mpLoop env remaining pn acc =
      ⟨.error (.storageError env.partErrMsg), true, !env.abortOk⟩ := by
  intro remaining
  induction remaining using Nat.strong_induction_on with
  | _ remaining ih =>
    intro pn acc hpn hlt
    rw [mpLoop]
    simp only [hr, reduceCtorEq, if_false]
    by_cases h0 : min PART_SIZE remaining = 0
    · exfalso
      simp only [PART_SIZE] at h0 hlt
      omega
    · by_cases he : m = pn
      · subst he
        simp only [dif_neg h0, hpe, Option.some.injEq]
        simp
      · simp only [dif_neg h0, hpe, Option.some.injEq, if_neg he]
        apply ih (remaining - min PART_SIZE remaining)
          (by simp only [PART_SIZE] at h0 ⊢; omega) (pn + 1) _ (by omega)
        simp only [PART_SIZE] at h0 hlt ⊢
        omega


/-- C4: on a file at or above the multipart threshold whose key is absent,
`uploadMultipart` submits exactly the parts numbered `1..k` in strictly
increasing contiguous order with `k = ⌈size / PART_SIZE⌉`, and never an
empty part (the zero-length final read only ends the loop). -/
theorem c4_upload_large_part_schedule (detect : Bytes → String)
    (ufEnv : UfEnv) (env : MpEnv) (st : S3State) (bucket : String)
    (file : LocalFile) (fileName ct deviceID : String)
    (hsize : MIN_MULTIPART_SIZE ≤ file.size)
    (hex : objectExists st bucket (deviceID ++ "/" ++ fileName) = false)
    (hcreate : env.createOk = true) (hr : env.readErrAt = none)
    (hp : env.partErrAt = none) :
    (uploadMultipart detect ufEnv env st bucket file fileName ct
        deviceID).parts.map Prod.fst =
      List.range' 1 ((file.size + PART_SIZE - 1) / PART_SIZE) ∧
    ∀ p ∈ (uploadMultipart detect ufEnv env st bucket file fileName ct
        deviceID).parts, 0 < p.2 := by
  have hns : ¬ file.size < MIN_MULTIPART_SIZE := by omega
  have hloop := mpLoop_happy env hr hp file.size 1 []
  constructor
  · simp only [uploadMultipart, hns, if_false, hex, Bool.false_eq_true,
      hcreate, not_true, Bool.not_eq_true]
    rw [hloop]
    by_cases hc : env.completeOk <;> simp [hc, partsSchedule_map_fst]
  · intro p hmem
    apply partsSchedule_pos file.size 1 p
    simp only [uploadMultipart, hns, if_false, hex, Bool.false_eq_true,
      hcreate, not_true, Bool.not_eq_true] at hmem
    rw [hloop] at hmem
    by_cases hc : env.completeOk <;> simp [hc] at hmem <;> exact hmem

/-- C5: a read error or an `UploadPart` error at any loop iteration
`1 ≤ j ≤ k` makes `uploadMultipart` abort the multipart session and return
the original injected error — for either value of `abortOk`, so an abort
failure is only logged (`abortFailLogged`) and never replaces the returned
error — and no completed object results (object list and completion count
unchanged). -/
theorem c5_upload_large_error_aborts (detect : Bytes → String)
    (ufEnv : UfEnv) (st : S3State) (bucket : String) (file : LocalFile)
    (fileName ct deviceID : String) (j : Nat) (msgR msgP : String)
    (abortOk : Bool) (hsize : MIN_MULTIPART_SIZE ≤ file.size)
    (hex : objectExists st bucket (deviceID ++ "/" ++ fileName) = false)
    (hj1 : 1 ≤ j) (hjk : j ≤ (file.size + PART_SIZE - 1) / PART_SIZE) :
    ((uploadMultipart detect ufEnv ⟨true, some j, msgR, none, "", true,
        abortOk⟩ st bucket file fileName ct deviceID).res =
        .error (.ioError msgR) ∧
     (uploadMultipart detect ufEnv ⟨true, some j, msgR, none, "", true,
        abortOk⟩ st bucket file fileName ct deviceID).abortCalled = true ∧
     (uploadMultipart detect ufEnv ⟨true, some j, msgR, none, "", true,
        abortOk⟩ st bucket file fileName ct deviceID).abortFailLogged =
        !abortOk ∧
     (uploadMultipart detect ufEnv ⟨true, some j, msgR, none, "", true,
        abortOk⟩ st bucket file fileName ct deviceID).st.objects =
        st.objects ∧
     (uploadMultipart detect ufEnv ⟨true, some j, msgR, none, "", true,
        abortOk⟩ st bucket file fileName ct deviceID).st.mpCompleted =
        st.mpCompleted ∧
     (uploadMultipart detect ufEnv ⟨true, some j, msgR, none, "", true,
        abortOk⟩ st bucket file fileName ct deviceID).st.mpAborted =
        st.mpAborted + 1) ∧
    ((uploadMultipart detect ufEnv ⟨true, none, "", some j, msgP, true,
        abortOk⟩ st bucket file fileName ct deviceID).res =
        .error (.storageError msgP) ∧
     (uploadMultipart detect ufEnv ⟨true, none, "", some j, msgP, true,
        abortOk⟩ st bucket file fileName ct deviceID).abortCalled = true ∧
     (uploadMultipart detect ufEnv ⟨true, none, "", some j, msgP, true,
        abortOk⟩ st bucket file fileName ct deviceID).abortFailLogged =
        !abortOk ∧
     (uploadMultipart detect ufEnv ⟨true, none, "", some j, msgP, true,
        abortOk⟩ st bucket file fileName ct deviceID).st.objects =
        st.objects ∧
     (uploadMultipart detect ufEnv ⟨true, none, "", some j, msgP, true,
        abortOk⟩ st bucket file fileName ct deviceID).st.mpCompleted =
        st.mpCompleted ∧
     (uploadMultipart detect ufEnv ⟨true, none, "", some j, msgP, true,
        abortOk⟩ st bucket file fileName ct deviceID).st.mpAborted =
        st.mpAborted + 1) := by
  have hns : ¬ file.size < MIN_MULTIPART_SIZE := by omega
  constructor
  · simp only [uploadMultipart, hns, if_false, hex, Bool.false_eq_true]
    rw [mpLoop_readErr _ j rfl rfl file.size 1 [] hj1 (by omega)]
    simp
  · simp only [uploadMultipart, hns, if_false, hex, Bool.false_eq_true]
    rw [mpLoop_partErr _ j rfl rfl file.size 1 [] hj1 (by omega)]
    simp


/-- Witness for C4: a 1.5 GB file is uploaded as exactly the parts numbered
`1, 2, 3`. -/
theorem c4_witness :
    (uploadMultipart (fun _ => "application/zip") ⟨true, true⟩
        ⟨true, none, "", none, "", true, true⟩ ⟨[], 0, 0, 0, 0, []⟩
        "pottery-log-exports" ⟨1500000000, []⟩ "f.zip" "application/zip"
        "d").parts.map Prod.fst =
      List.range' 1 ((1500000000 + PART_SIZE - 1) / PART_SIZE) ∧
    (1500000000 + PART_SIZE - 1) / PART_SIZE = 3 :=
  ⟨(c4_upload_large_part_schedule (fun _ => "application/zip") ⟨true, true⟩
      ⟨true, none, "", none, "", true, true⟩ ⟨[], 0, 0, 0, 0, []⟩
      "pottery-log-exports" ⟨1500000000, []⟩ "f.zip" "application/zip" "d"
      (by decide) (by decide) rfl rfl rfl).1, by decide⟩

/-- Witness for C5: a failure on part 2 of a 1.5 GB upload, with the abort
itself also failing, still returns the part-upload error and called abort. -/
theorem c5_witness :
    (uploadMultipart (fun _ => "application/zip") ⟨true, true⟩
        ⟨true, none, "", some 2, "upload part failed", true, false⟩
        ⟨[], 0, 0, 0, 0, []⟩ "pottery-log-exports" ⟨1500000000, []⟩ "f.zip"
        "application/zip" "d").res =
      .error (.storageError "upload part failed") ∧
    (uploadMultipart (fun _ => "application/zip") ⟨true, true⟩
        ⟨true, none, "", some 2, "upload part failed", true, false⟩
        ⟨[], 0, 0, 0, 0, []⟩ "pottery-log-exports" ⟨1500000000, []⟩ "f.zip"
        "application/zip" "d").abortCalled = true :=
  ⟨((c5_upload_large_error_aborts (fun _ => "application/zip") ⟨true, true⟩
      ⟨[], 0, 0, 0, 0, []⟩ "pottery-log-exports" ⟨1500000000, []⟩ "f.zip"
      "application/zip" "d" 2 "disk read failed" "upload part failed" false
      (by decide) (by decide) (by decide) (by decide)).2).1,
   ((c5_upload_large_error_aborts (fun _ => "application/zip") ⟨true, true⟩
      ⟨[], 0, 0, 0, 0, []⟩ "pottery-log-exports" ⟨1500000000, []⟩ "f.zip"
      "application/zip" "d" 2 "disk read failed" "upload part failed" false
      (by decide) (by decide) (by decide) (by decide)).2).2.1⟩

/-- With the local read and the remote put succeeding, `uploadFile` on a
non-seekable source always reports success. -/
theorem uploadFile_stream_isOk (detect : Bytes → String) (env : UfEnv)
    (st : S3State) (bucket : String) (d : Bytes) (fileName ct deviceID : String)
    (hr : env.readOk = true) (hp : env.putOk = true) :
    (uploadFile detect env st bucket (.stream d) fileName ct
      deviceID).1.isOk = true := by
  by_cases hex : objectExists st bucket (deviceID ++ "/" ++ fileName)
  · simp [uploadFile, hex, Except.isOk, Except.toBool]
  · by_cases hs : ct.startsWith "image/"
    · simp [uploadFile, hex, hr, hp, hs, Except.isOk, Except.toBool]
    · simp [uploadFile, hex, hr, hp, hs, Except.isOk, Except.toBool]

/-- The import entry loop over entries none of which carry the reserved
metadata name, all of which open fine and upload successfully, still ends
in the missing-metadata validation error. -/
theorem importLoop_no_metadata (detect : Bytes → String) (env : UfEnv)
    (hr : env.readOk = true) (hp : env.putOk = true) (deviceID : String) :
    ∀ entries : List ZipEntry, (∀ f ∈ entries, f.name ≠ metadataFileName) →
    (∀ f ∈ entries, f.openOk = true) →
    ∀ (st : S3State) (imageMap : List (String × String)),
    (importLoop detect env st deviceID entries imageMap none).1 =
      .error (.validationError
        ("No " ++ metadataFileName ++ " found in the zip file")) := by
  intro entries
  induction entries with
  | nil =>
      intro _ _ st imageMap
      simp [importLoop]
  | cons f rest ih =>
      intro hname hopen st imageMap
      have hf : ¬ f.name = metadataFileName := hname f (by simp)
      have ho : f.openOk = true := hopen f (by simp)
      simp only [importLoop, hf, if_false, ho, not_true, Bool.not_eq_true]
      have hok := uploadFile_stream_isOk detect env st importBucketName
        f.data f.name f.comment deviceID hr hp
      rcases hu : uploadFile detect env st importBucketName (.stream f.data)
        f.name f.comment deviceID with ⟨r, st'⟩
      rw [hu] at hok
      cases r with
      | error er => simp [Except.isOk, Except.toBool] at hok
      | ok u =>
          exact ih (fun g hg => hname g (List.mem_cons_of_mem f hg))
            (fun g hg => hopen g (List.mem_cons_of_mem f hg)) st'
            (imageMap ++ [(f.name, u)])

/-- C6: `Import` on an archive with no reserved metadata entry fails with
the `ValidationError` after full enumeration, even though every image entry
uploads successfully — the partially built name-to-URL map is not reported
as a success. -/
theorem c6_import_missing_metadata_fails (detect : Bytes → String)
    (env : UfEnv) (st : S3State) (deviceID : String)
    (entries : List ZipEntry)
    (hname : ∀ f ∈ entries, f.name ≠ metadataFileName)
    (hopen : ∀ f ∈ entries, f.openOk = true)
    (hr : env.readOk = true) (hp : env.putOk = true) :
    (importArchive detect env st deviceID entries).1 =
      .error (.validationError
        ("No " ++ metadataFileName ++ " found in the zip file")) :=
  importLoop_no_metadata detect env hr hp deviceID entries hname hopen st []

/-- Witness for C6: an archive holding only the image entries `a.png` and
`b.png` fails with the missing-metadata validation error. -/
theorem c6_import_missing_metadata_fails_witness :
    (importArchive (fun _ => "image/png") ⟨true, true⟩ ⟨[], 0, 0, 0, 0, []⟩
        "d" [⟨"a.png", "image/png", [1], true, true⟩,
             ⟨"b.png", "image/png", [2], true, true⟩]).1 =
      .error (.validationError
        ("No " ++ metadataFileName ++ " found in the zip file")) :=
  c6_import_missing_metadata_fails (fun _ => "image/png") ⟨true, true⟩
    ⟨[], 0, 0, 0, 0, []⟩ "d"
    [⟨"a.png", "image/png", [1], true, true⟩,
     ⟨"b.png", "image/png", [2], true, true⟩]
    (by decide) (by decide) rfl rfl

/-- C9: `downloadImport` rejects any URL whose host is not exactly
`"pottery-log-exports.s3.amazonaws.com"` with the `ValidationError` before
issuing any fetch, and issues the fetch exactly when the host matches. -/
theorem c9_download_import_host_check :
    (∀ (downloadOk : Bool) (u : ParsedUrl),
        u.host ≠ importBucketName ++ ".s3.amazonaws.com" →
        downloadImport downloadOk u =
          (.error (.validationError
            "The link must be a Pottery Log export link"), false)) ∧
    (∀ (downloadOk : Bool) (u : ParsedUrl),
        u.host = importBucketName ++ ".s3.amazonaws.com" →
        (downloadImport downloadOk u).2 = true) := by
  constructor
  · intro downloadOk u h
    simp [downloadImport, h]
  · intro downloadOk u h
    simp only [downloadImport, h, ne_eq, not_true_eq_false, if_false]
    split <;> rfl

/-- Witness for C9: a foreign host is rejected without fetching; the exact
import-bucket host is fetched. -/
theorem c9_download_import_host_check_witness :
    downloadImport true ⟨"evil.example.com", "/x.zip"⟩ =
      (.error (.validationError
        "The link must be a Pottery Log export link"), false) ∧
    (downloadImport true
      ⟨"pottery-log-exports.s3.amazonaws.com", "/x.zip"⟩).2 = true :=
  ⟨c9_download_import_host_check.1 true ⟨"evil.example.com", "/x.zip"⟩
     (by decide),
   c9_download_import_host_check.2 true
     ⟨"pottery-log-exports.s3.amazonaws.com", "/x.zip"⟩ (by decide)⟩

/-- The splitter always produces at least one chunk. -/
theorem splitSepFuel_ne_nil (c0 : Char) (ctail : List Char) :
    ∀ (fuel : Nat) (s acc : List Char),
    splitSepFuel c0 ctail fuel s acc ≠ [] := by
  intro fuel
  induction fuel with
  | zero => intro s acc; simp [splitSepFuel]
  | succ fuel ih =>
      intro s acc
      cases s with
      | nil => simp [splitSepFuel]
      | cons c rest =>
          simp only [splitSepFuel]
          split
          · simp
          · exact ih rest (c :: acc)

/-- Joining the split chunks with the separator restores the input: the
split decomposes the string verbatim. -/
theorem splitSepFuel_join (c0 : Char) (ctail : List Char) :
    ∀ (fuel : Nat) (s acc : List Char), s.length < fuel →
    joinSep (c0 :: ctail) (splitSepFuel c0 ctail fuel s acc) =
      acc.reverse ++ s := by
  intro fuel
  induction fuel with
  | zero => intro s acc h; omega
  | succ fuel ih =>
      intro s acc h
      cases s with
      | nil => simp [splitSepFuel, joinSep]
      | cons c rest =>
          simp only [splitSepFuel]
          by_cases hpre : (c0 :: ctail).isPrefixOf (c :: rest)
          · rw [if_pos hpre]
            have hlen : (rest.drop ctail.length).length < fuel := by
              have hd := List.length_drop ctail.length rest
              simp only [List.length_cons] at h
              omega
            have hrec := ih (rest.drop ctail.length) [] hlen
            have hne := splitSepFuel_ne_nil c0 ctail fuel
              (rest.drop ctail.length) []
            obtain ⟨y, t, hyt⟩ : ∃ y t,
                splitSepFuel c0 ctail fuel (rest.drop ctail.length) [] =
                  y :: t := by
              cases hsp : splitSepFuel c0 ctail fuel (rest.drop ctail.length) []
                with
              | nil => exact absurd hsp hne
              | cons y t => exact ⟨y, t, rfl⟩
            rw [hyt]
            simp only [joinSep]
            rw [← hyt, hrec]
            have hPre : (c0 :: ctail) <+: (c :: rest) := by
              rw [← List.isPrefixOf_iff_prefix]
              exact hpre
            obtain ⟨t2, ht2⟩ := hPre
            have hct : c0 = c ∧ ctail ++ t2 = rest := by
              simp only [List.cons_append, List.cons.injEq] at ht2
              exact ht2
            have hdrop : rest.drop ctail.length = t2 := by
              rw [← hct.2]
              exact List.drop_left ctail t2
            rw [hdrop, ← hct.1]
            rw [← hct.2]
            simp
          · rw [if_neg hpre]
            rw [ih rest (c :: acc)
              (by simp only [List.length_cons] at h; omega)]
            simp


/-- `splitSep` decomposes its input verbatim: joining the chunks with the
(non-empty) separator gives back the input. -/
theorem splitSep_join (sep s : List Char) (h : sep ≠ []) :
    joinSep sep (splitSep sep s) = s := by
  cases sep with
  | nil => exact absurd rfl h
  | cons c0 ctail =>
      simp only [splitSep]
      rw [splitSepFuel_join c0 ctail (s.length + 1) s [] (by omega)]
      simp

/-- C10: for a URI the `Delete` handler accepts (exactly one occurrence of
`"s3.amazonaws.com/"`), the deletion is issued against the fixed image
bucket with the key taken verbatim as the substring after the marker —
whatever bucket or host the URI itself names. -/
theorem c10_delete_always_image_bucket (deleteOk : Bool) (st : S3State)
    (uri p0 p1 : List Char) (hne : uri ≠ [])
    (hsplit : splitSep s3Marker uri = [p0, p1]) :
    deleteHandlerCore deleteOk st uri =
      ((if deleteOk then .ok ()
        else .error (.storageError "DeleteObject failed")),
       { st with deletes := (imageBucketName, String.mk p1) :: st.deletes }) ∧
    uri = p0 ++ s3Marker ++ p1 := by
  constructor
  · simp only [deleteHandlerCore, hne, if_neg hne, hsplit]
    simp only [deleteImage, hsplit]
    by_cases hd : deleteOk <;> simp [hd, hsplit]
  · have hj := splitSep_join s3Marker uri (by decide)
    rw [hsplit] at hj
    simp only [joinSep] at hj
    rw [← hj]

/-- Witness for C10: a URI naming the export bucket
(`pottery-log-exports`) still deletes the key `dev/f.zip` from the image
bucket `pottery-log`. -/
theorem c10_delete_always_image_bucket_witness :
    deleteHandlerCore true ⟨[], 0, 0, 0, 0, []⟩
        "https://pottery-log-exports.s3.amazonaws.com/dev/f.zip".toList =
      (.ok (),
       { objects := [], putCount := 0, mpCreated := 0, mpAborted := 0,
         mpCompleted := 0,
         deletes := [("pottery-log", "dev/f.zip")] }) ∧
    "https://pottery-log-exports.s3.amazonaws.com/dev/f.zip".toList =
      "https://pottery-log-exports.".toList ++ s3Marker ++
        "dev/f.zip".toList :=
  c10_delete_always_image_bucket true ⟨[], 0, 0, 0, 0, []⟩
    "https://pottery-log-exports.s3.amazonaws.com/dev/f.zip".toList
    "https://pottery-log-exports.".toList "dev/f.zip".toList
    (by decide) (by decide)

end PotteryLog
